import Mathlib

/-!
Shallow embedding of the zipline upload ingestion pipeline
(`src/pages/api/upload.ts`-style handler, given here as `src/unnamed/part_000`)
and of the file management endpoint (`src/pages/api/user/files.ts`).

Each definition is translated from the TypeScript source; line numbers in the
doc comments refer to the source files. JavaScript numbers are modelled as
`Int`/`Nat`, JS truthiness of optional header strings as `Option String`
with the empty string falsy, and fallible paths as `Except String`.
-/

namespace Zipline

/-- The `FileNameFormat` enum from the prisma client: `RANDOM | DATE | UUID | NAME`. -/
inductive FileNameFormat
  | RANDOM
  | DATE
  | UUID
  | NAME
deriving DecidableEq, Repr

/-- `Object.keys(FileNameFormat)` — the member names of the enum. -/
def fileNameFormatKeys : List String := ["RANDOM", "DATE", "UUID", "NAME"]

/-- `FileNameFormat[key]` — the enum member named by a key, if any. -/
def fileNameFormatOfKey (s : String) : Option FileNameFormat :=
  if s = "RANDOM" then some .RANDOM
  else if s = "DATE" then some .DATE
  else if s = "UUID" then some .UUID
  else if s = "NAME" then some .NAME
  else none

/-- JS truthiness of an optional header string: present and non-empty. -/
def truthy (h : Option String) : Bool :=
  match h with
  | none => false
  | some s => s ≠ ""

/-- `pre` is a leading run of `s` (character lists). -/
def charsPrefix : List Char → List Char → Bool
  | [], _ => true
  | _ :: _, [] => false
  | a :: as, b :: bs => a == b && charsPrefix as bs

/-- JS `s.startsWith(pre)`, executable by structural recursion over the
characters (the library `String.startsWith` does not reduce in the kernel). -/
def jsStartsWith (s pre : String) : Bool := charsPrefix pre.data s.data

/-- JS `s.toUpperCase()` over the characters. -/
def jsToUpper (s : String) : String := String.mk (s.data.map Char.toUpper)

/-- Split a character list at every occurrence of `c`. -/
def splitChars (c : Char) : List Char → List (List Char)
  | [] => [[]]
  | a :: rest =>
    let r := splitChars c rest
    if a = c then [] :: r
    else
      match r with
      | [] => [[a]]
      | h :: t => (a :: h) :: t

/-- JS `s.split('.')`. -/
def jsSplitDot (s : String) : List String := (splitChars '.' s.data).map String.mk

/-- part_000 line 57:
`const rawFormat = ((req.headers.format || '') as string).toUpperCase() || zconfig.uploader.default_format;` -/
def rawFormat (formatHeader : Option String) (defaultFormat : String) : String :=
  let up := jsToUpper (formatHeader.getD "")
  if up = "" then defaultFormat else up

/-- part_000 line 58:
`const format = Object.keys(FileNameFormat).includes(rawFormat) && FileNameFormat[rawFormat];`
The JS value `false` (when the key is not a member) is modelled as `none`. -/
def resolveFormat (formatHeader : Option String) (defaultFormat : String) : Option FileNameFormat :=
  let raw := rawFormat formatHeader defaultFormat
  if raw ∈ fileNameFormatKeys then fileNameFormatOfKey raw else none

/-! ### C1 — rate limiter update after a non-chunked batch (part_000 lines 338-358) -/

/-- `zconfig.ratelimit` — cooldown durations in seconds. -/
structure RatelimitConfig where
  admin : Int
  user : Int
deriving DecidableEq, Repr

/-- part_000 lines 338-358, translated verbatim, including the inner
`if (user.administrator && zconfig.ratelimit.user > 0)` that sits inside the
`else if (!user.administrator && ...)` branch. Returns `some instant` when the
user's `ratelimit` field is updated to that instant, `none` when it is left
untouched. -/
def ratelimitUpdateAfterBatch (administrator : Bool) (cfg : RatelimitConfig) (now : Int) :
    Option Int :=
  if administrator = true ∧ cfg.admin > 0 then
    some (now + cfg.admin * 1000)
  else if administrator = false ∧ cfg.user > 0 then
    (if administrator = true ∧ cfg.user > 0 then
      some (now + cfg.user * 1000)
    else none)
  else none

/-! ### C2 — file management endpoint, ownership scoping (files.ts lines 31-61) -/

/-- A persisted File Record (the fields the claims need). -/
structure FileRecord where
  id : Nat
  name : String
  userId : Nat
  favorite : Bool
  mimetype : String
deriving DecidableEq, Repr

/-- files.ts lines 34-38: `prisma.file.delete({ where: { id: req.body.id } })` —
the record with the given id is deleted, with no `userId` constraint. The
authenticated caller's id is a parameter of the handler but does not occur in
the `where` clause, so it is unused here, exactly as in the source. -/
def handleDeleteSingle (_callerId : Nat) (db : List FileRecord) (fid : Nat) :
    List FileRecord :=
  db.filter (fun f => f.id ≠ fid)

/-- files.ts lines 52-58: `prisma.file.update({ where: { id: req.body.id },
data: { favorite: req.body.favorite } })` — again with no `userId` constraint. -/
def handlePatchFavorite (_callerId : Nat) (db : List FileRecord) (fid : Nat) (fav : Bool) :
    List FileRecord :=
  db.map (fun f => if f.id = fid then { f with favorite := fav } else f)

/-! ### C4 — domain selection and URL scheme (part_000 lines 174-185, 312-324) -/

/-- `zconfig.core.return_https ? 'https' : 'http'`. -/
def scheme (returnHttps : Bool) : String :=
  if returnHttps then "https" else "http"

/-- part_000 lines 174-181: domain selection on the chunked path. `domIdx`
stands for the evaluated `Math.floor(Math.random() * user.domains.length)`.
On the random-custom-domain branch (line 178) the raw domain entry is used
with no scheme prepended. -/
def chunkedDomain (overrideDomain : Option String) (userDomains : List String)
    (host : String) (returnHttps : Bool) (domIdx : Nat) : String :=
  if truthy overrideDomain then
    scheme returnHttps ++ "://" ++ overrideDomain.getD ""
  else if userDomains.length ≠ 0 then
    userDomains.getD domIdx ""
  else
    scheme returnHttps ++ "://" ++ host

/-- part_000 lines 312-320: domain selection on the whole-upload path; here the
random custom domain does get the scheme prepended (line 317). -/
def wholeDomain (overrideDomain : Option String) (userDomains : List String)
    (host : String) (returnHttps : Bool) (domIdx : Nat) : String :=
  if truthy overrideDomain then
    scheme returnHttps ++ "://" ++ overrideDomain.getD ""
  else if userDomains.length ≠ 0 then
    scheme returnHttps ++ "://" ++ userDomains.getD domIdx ""
  else
    scheme returnHttps ++ "://" ++ host

/-- part_000 lines 183-185 / 322-324: the response URL. -/
def responseUrl (domain : String) (route : String) (nameOrInvis : String) : String :=
  domain ++ (if route = "/" then "/" else route) ++ nameOrInvis

/-! ### C5 / C7 — filename allocation (part_000 lines 57-58, 124-145, 244-276) -/

/-- part_000 lines 124 / 244: the extension is empty when the original name has
no `.`, else the part after the last `.` (`split('.').pop()`). -/
def extOf (originalname : String) : String :=
  let parts := jsSplitDot originalname
  if parts.length = 1 then "" else parts.getLastD ""

/-- part_000 lines 157 / 287: the stored record name —
`fileName + (compressionUsed ? '.jpg' : (ext ? '.' : '') + ext)`. -/
def storedName (fileName : String) (ext : String) (compressionUsed : Bool) : String :=
  fileName ++ (if compressionUsed then ".jpg" else (if ext ≠ "" then "." else "") ++ ext)

/-- The action selected by a `switch (format)` statement. -/
inductive NamingAction
  | randomName
  | dateName
  | uuidName
  | stemName
  | explicitName (s : String)
deriving DecidableEq, Repr

/-- part_000 lines 129-145: the chunked-path `switch (format)`; its `default`
branch (reached when `format` is the JS value `false`) picks a random name. -/
def chunkedNaming (format : Option FileNameFormat) : NamingAction :=
  match format with
  | some .RANDOM => .randomName
  | some .DATE => .dateName
  | some .UUID => .uuidName
  | some .NAME => .stemName
  | none => .randomName

/-- part_000 lines 249-276: the whole-path `switch (format)`; its `default`
branch uses the `x-zipline-filename` header when truthy, else a random name. -/
def wholeNaming (format : Option FileNameFormat) (xZiplineFilename : Option String) :
    NamingAction :=
  match format with
  | some .RANDOM => .randomName
  | some .DATE => .dateName
  | some .UUID => .uuidName
  | some .NAME => .stemName
  | none =>
    if truthy xZiplineFilename then .explicitName (xZiplineFilename.getD "")
    else .randomName

/-- part_000 lines 262-273 and 285-297, restricted to the explicit-name default
branch: the conflict check `prisma.file.findFirst({ where: { name: fileName } })`
against the supplied name, then record creation whose stored name appends the
derived extension (or `.jpg`). Returns the created record's name. -/
def explicitUpload (db : List FileRecord) (supplied : String) (originalname : String)
    (compressionUsed : Bool) : Except String String :=
  match db.find? (fun f => f.name = supplied) with
  | some _ => .error ("filename already exists: " ++ supplied)
  | none => .ok (storedName supplied (extOf originalname) compressionUsed)

/-! ### C6 — expiry computation (part_000 lines 41-55) -/

/-- part_000 lines 41-55. `parse` models `parseExpiry` (from `lib/utils/client`,
not among the provided sources) as an opaque parameter; `none` stands for a
falsy parse result. On success returns `(stored expiry, response.expiresAt)`:
the former is the `expiry` variable as it stands after line 55 (and is what the
`prisma.file.create` calls persist), the latter the `response.expiresAt` field
set at line 48. -/
def computeExpiry (parse : String → Option Int) (expiresAtHeader : Option String)
    (defaultExpiration : Option String) : Except String (Option Int × Option Int) :=
  let fromHeader : Except String (Option Int × Option Int) :=
    if truthy expiresAtHeader then
      match parse (expiresAtHeader.getD "") with
      | none => .error "invalid date"
      | some e => .ok (some e, some e)
    else .ok (none, none)
  match fromHeader with
  | .error m => .error m
  | .ok (expiry, respExpiresAt) =>
    if truthy defaultExpiration then
      match parse (defaultExpiration.getD "") with
      | none => .error "invalid date (UPLOADER_DEFAULT_EXPIRATION)"
      | some e => .ok (some e, respExpiresAt)
    else .ok (expiry, respExpiresAt)

/-! ### C8 — image compression trigger (part_000 lines 60-66, 283-309) -/

/-- part_000 lines 60-66: validation of the compression percent header. The
header value at this point has already been parsed by `Number(...)` (the NaN
rejection at lines 63-64 precedes this range check); `none` is an absent or
empty header, which yields `null`. -/
def checkPercent (h : Option Int) : Except String (Option Int) :=
  match h with
  | none => .ok none
  | some n =>
    if n < 0 ∨ n > 100 then .error "invalid image compression percent (% < 0 || % > 100)"
    else .ok (some n)

/-- part_000 line 283:
`const compressionUsed = imageCompressionPercent && file.mimetype.startsWith('image/');`
with the JS falsiness of both `null` and `0`. -/
def compressionUsed (percent : Option Int) (mimetype : String) : Bool :=
  match percent with
  | none => false
  | some n => decide (n ≠ 0) && jsStartsWith mimetype "image/"

/-- part_000 line 288: the stored mimetype —
`req.headers.uploadtext ? 'text/plain' : compressionUsed ? 'image/jpeg' : file.mimetype`. -/
def storedMimetype (uploadtext : Bool) (comp : Bool) (fileMime : String) : String :=
  if uploadtext then "text/plain" else if comp then "image/jpeg" else fileMime

/-! ### C9 — file listing (files.ts lines 62-99) -/

/-- A listed file: the record plus the `url` field added at line 93. -/
structure ListedFile where
  entry : FileRecord
  url : String
deriving DecidableEq, Repr

/-- files.ts line 97: `/^(video|audio|image|text)/.test(x.mimetype)`. -/
def mediaRegexTest (m : String) : Bool :=
  jsStartsWith m "video" || jsStartsWith m "audio" || jsStartsWith m "image" || jsStartsWith m "text"

/-- files.ts lines 62-99: the GET branch. `fmtUrl` models `formatRootUrl`
(from `lib/utils/urls`, not among the provided sources). `favoriteQuery` is the
truthiness `!!req.query.favorite`; `filterQuery` is `req.query.filter`. The
`where` clause is `userId = user.id AND favorite = !!req.query.favorite`. The
`orderBy createdAt desc` sorting is not modelled; the claims concern membership
only. -/
def listFiles (fmtUrl : String → String → String) (route : String) (db : List FileRecord)
    (uid : Nat) (favoriteQuery : Bool) (filterQuery : Option String) : List ListedFile :=
  let files := (db.filter (fun f => f.userId == uid && f.favorite == favoriteQuery)).map
    (fun f => ListedFile.mk f (fmtUrl route f.name))
  if truthy filterQuery && (filterQuery == some "media") then
    files.filter (fun x => mediaRegexTest x.entry.mimetype)
  else files

/-! ### C10 — chunked-branch dispatch (part_000 lines 73-104, 223-224) -/

/-- The observable outcome of the dispatch section of the upload handler. -/
inductive UploadOutcome
  | badRequest (msg : String)
  | wroteChunk
  | finalized
  | crashHead
  | proceeded
deriving DecidableEq, Repr

/-- part_000 lines 73-104 and 223-224: the dispatch between the chunked branch
and the whole-upload path. In the chunked branch the code evaluates
`req.files[0].buffer` (line 100) with no emptiness check: with `req.files`
undefined or empty, `req.files[0].buffer` raises a TypeError, modelled as
`crashHead`. The `no files` rejections (lines 223-224) sit after the chunked
branch, so they are reached only when no truthy `content-range` header is
present. `files` is `none` when `req.files` is undefined. -/
def uploadDispatch (contentRange : Option String) (files : Option (List (List Nat)))
    (lastchunk : Bool) : UploadOutcome :=
  if truthy contentRange then
    match files with
    | none => .crashHead
    | some fs =>
      match fs.head? with
      | none => .crashHead
      | some _ => if lastchunk then .finalized else .wroteChunk
  else
    match files with
    | none => .badRequest "no files"
    | some fs => if fs.length = 0 then .badRequest "no files" else .proceeded

/-! ### C3 — chunk reassembly and transient cleanup (part_000 lines 98-122) -/

/-- A stored chunk: its byte offset and its payload. In the source the offset is
recovered from the transient file's name and the payload read back from disk
(lines 107-118). -/
structure Chunk where
  start : Nat
  data : List Nat
deriving DecidableEq, Repr

/-- `chunks.set(buffer, chunkData.start)` (part_000 line 121), pointwise on the
byte array: positions in `[start, start + data.length)` take the chunk's bytes,
the rest keep their previous value. -/
def writeChunk (a : Nat → Nat) (c : Chunk) : Nat → Nat :=
  fun j => if c.start ≤ j ∧ j < c.start + c.data.length then c.data.getD (j - c.start) 0 else a j

/-- part_000 lines 113-122: `new Uint8Array(total)` is zero-initialised and each
stored chunk is copied in at its offset, in the (arbitrary) directory-listing
order of `readChunks`. -/
def reassemble (chunks : List Chunk) : Nat → Nat :=
  chunks.foldl writeChunk (fun _ => 0)

/-- Position `j` lies in the byte range of chunk `c`. -/
def coversIdx (c : Chunk) (j : Nat) : Prop :=
  c.start ≤ j ∧ j < c.start + c.data.length

instance (c : Chunk) (j : Nat) : Decidable (coversIdx c j) := by
  unfold coversIdx; exact inferInstance

/-- No overlap between two chunks: their byte ranges are separated. -/
def chunkDisjoint (c₁ c₂ : Chunk) : Prop :=
  c₁.start + c₁.data.length ≤ c₂.start ∨ c₂.start + c₂.data.length ≤ c₁.start

instance (c₁ c₂ : Chunk) : Decidable (chunkDisjoint c₁ c₂) := by
  unfold chunkDisjoint; exact inferInstance

/-- The chunk list is a correct tiling of `orig` over `[0, total)`: pairwise
separated ranges, each chunk carrying the corresponding slice of `orig`, each
chunk inside `[0, total)`, and every position below `total` covered by some
chunk — the claim's "no gaps and no overlaps" premise. -/
def validChunks (orig : Nat → Nat) (total : Nat) (l : List Chunk) : Prop :=
  l.Pairwise chunkDisjoint ∧
  (∀ c ∈ l, ∀ k < c.data.length, c.data.getD k 0 = orig (c.start + k)) ∧
  (∀ c ∈ l, c.start + c.data.length ≤ total) ∧
  (∀ j < total, ∃ c ∈ l, coversIdx c j)

instance (orig : Nat → Nat) (total : Nat) (l : List Chunk) :
    Decidable (validChunks orig total l) := by
  unfold validChunks
  infer_instance

/-- The transient chunk file name prefix of a session:
`zipline_partial_${identifier}` (part_000 lines 98, 104). -/
def sessionKey (identifier : String) : String :=
  "zipline_partial_" ++ identifier

/-- part_000 lines 103-105: the `tmpdir()` listing filtered with
`x.startsWith(...)` to this session's transient entries. -/
def sessionChunkFiles (files : List String) (identifier : String) : List String :=
  files.filter (fun x => jsStartsWith x (sessionKey identifier))

/-- part_000 lines 115-122: each listed chunk file is `unlink`ed after being
copied; each `unlink` removes one directory entry. -/
def unlinkAll (files : List String) (toRemove : List String) : List String :=
  toRemove.foldl (fun acc n => acc.erase n) files

end Zipline

namespace Zipline

/-- Claim C1: the spec says that after a non-chunked batch by a non-administrator
with configured user cooldown `> 0`, the cooldown is set to `now + userCooldown`.
The code never sets it: the non-administrator branch guards its only update with
`user.administrator && ...`, which is unsatisfiable there. At administrator=false,
cfg = ⟨3, 5⟩, now = 1000 the code leaves the cooldown untouched instead of
setting it to 1000 + 5 * 1000 = 6000. The administrator half of the claim does
hold, as the same evaluation shows. -/
theorem C1_user_cooldown_never_set :
    ratelimitUpdateAfterBatch false ⟨3, 5⟩ 1000 = none ∧
    ratelimitUpdateAfterBatch false ⟨3, 5⟩ 1000 ≠ some 6000 ∧
    ratelimitUpdateAfterBatch true ⟨3, 5⟩ 1000 = some 4000 := by
  refine ⟨rfl, ?_, rfl⟩
  decide

/-- Claim C2: the spec says DELETE (single file by id) and PATCH (favorite
toggle) affect only the caller's own records. With caller user id 1 and a
database holding one file (id 7) owned by user 2: the DELETE handler removes
user 2's record, and the PATCH handler flips user 2's favorite flag, so records
of other users are not left unchanged. -/
theorem C2_other_users_records_affected :
    handleDeleteSingle 1 [⟨7, "b.png", 2, false, "image/png"⟩] 7 = [] ∧
    handlePatchFavorite 1 [⟨7, "b.png", 2, false, "image/png"⟩] 7 true =
      [⟨7, "b.png", 2, true, "image/png"⟩] := by
  exact ⟨rfl, rfl⟩

/-- Claim C4: the spec says every response URL's scheme is `https` iff configured,
for every domain-selection outcome. On the chunked path's random-custom-domain
branch the code uses the raw domain entry with no scheme (part_000 line 178),
while the whole-upload path prepends the scheme to the same entry (line 317).
With `return_https = true`, no override header, one custom domain `example.com`
and host `host.test`, the chunked response URL is `example.com/u/abc`, which does
not start with `https`, while the whole-upload URL for identical inputs does. -/
theorem C4_chunked_random_domain_lacks_scheme :
    responseUrl (chunkedDomain none ["example.com"] "host.test" true 0) "/u/" "abc" =
      "example.com/u/abc" ∧
    jsStartsWith (responseUrl (chunkedDomain none ["example.com"] "host.test" true 0) "/u/" "abc")
      "https" = false ∧
    jsStartsWith (responseUrl (wholeDomain none ["example.com"] "host.test" true 0) "/u/" "abc")
      "https" = true := by
  refine ⟨rfl, ?_, ?_⟩ <;> decide

/-- Claim C5 counterexample: the spec says the supplied explicit name is stored
verbatim when no record with that exact name exists. With supplied name `n`,
original filename `a.png` and no compression, the created record's name is
`n.png` — the derived extension is appended (part_000 line 287) — not `n`. -/
theorem C5_counterexample :
    explicitUpload [] "n" "a.png" false = Except.ok "n.png" ∧ ("n.png" : String) ≠ "n" := by
  exact ⟨rfl, by decide⟩

/-- Claim C5 amended: on the explicit-name branch, if a record with the exact
supplied name exists the request fails with the name-conflict error and no name
is produced; otherwise the created record's name is the supplied name with the
original filename's derived extension appended (`.jpg` under compression) — it
equals the supplied name verbatim exactly when the derived extension is empty
and no compression applies. -/
theorem C5_explicit_name_amended (db : List FileRecord) (supplied orig : String) (comp : Bool) :
    ((∃ f, f ∈ db ∧ f.name = supplied) →
      explicitUpload db supplied orig comp =
        Except.error ("filename already exists: " ++ supplied)) ∧
    ((∀ f ∈ db, f.name ≠ supplied) →
      explicitUpload db supplied orig comp =
        Except.ok (storedName supplied (extOf orig) comp)) ∧
    (extOf orig = "" → comp = false → storedName supplied (extOf orig) comp = supplied) := by
  refine ⟨?_, ?_, ?_⟩
  · rintro ⟨f, hf, hname⟩
    unfold explicitUpload
    cases hfind : db.find? (fun f => f.name = supplied) with
    | none =>
      have := List.find?_eq_none.mp hfind f hf
      simp [hname] at this
    | some g => rfl
  · intro h
    have hfind : db.find? (fun f => f.name = supplied) = none :=
      List.find?_eq_none.mpr (fun x hx => by simpa using h x hx)
    unfold explicitUpload
    rw [hfind]
  · intro he hc
    subst hc
    simp [storedName, he]

/-- Closed instance of `C5_explicit_name_amended`: a conflicting record yields
the error; with an empty database, supplied name `n` and original `a.png` the
created name is `n.png`; with extensionless original `a` the supplied name is
kept verbatim. -/
theorem C5_explicit_name_amended_witness :
    explicitUpload [FileRecord.mk 7 "n" 2 false "image/png"] "n" "a.png" false =
      Except.error "filename already exists: n" ∧
    explicitUpload [] "n" "a.png" false = Except.ok "n.png" ∧
    storedName "n" (extOf "a") false = "n" := by
  have h₁ := C5_explicit_name_amended [FileRecord.mk 7 "n" 2 false "image/png"] "n" "a.png" false
  have h₂ := C5_explicit_name_amended ([] : List FileRecord) "n" "a.png" false
  have h₃ := C5_explicit_name_amended ([] : List FileRecord) "n" "a" false
  refine ⟨h₁.1 ⟨FileRecord.mk 7 "n" 2 false "image/png", by simp, rfl⟩, ?_, h₃.2.2 (by decide) rfl⟩
  exact h₂.2.1 (by simp)

/-- Claim C6: the spec says a present, successfully parsed `expires-at` header
determines the stored expiry, the configured default being used only when the
header is absent. The code overwrites the header-derived expiry with the parsed
configured default whenever one is configured (part_000 lines 52-55), while
`response.expiresAt` still reports the header value (line 48). With a parse
function sending `1h` to 3600 and `2h` to 7200, header `1h` and configured
default `2h`, the stored expiry is 7200 (the default) and the response reports
3600 (the header), contradicting the claim and the handler's own response. -/
theorem C6_default_expiration_overrides_header :
    computeExpiry
        (fun s => if s = "1h" then some 3600 else if s = "2h" then some 7200 else none)
        (some "1h") (some "2h") = Except.ok (some 7200, some 3600) ∧
    ((7200 : Int) ≠ 3600) := by
  exact ⟨rfl, by decide⟩

/-- Claim C7 counterexample: the spec says an unmatched format header value falls
back to the configured default format. With header `bogus` and configured
default `DATE`, `format` evaluates to the JS value `false` (modelled `none`), so
the chunked-path switch takes its default branch and allocates a random name,
not a `DATE` name. -/
theorem C7_counterexample :
    resolveFormat (some "bogus") "DATE" = none ∧
    chunkedNaming (resolveFormat (some "bogus") "DATE") = NamingAction.randomName ∧
    fileNameFormatOfKey "DATE" = some FileNameFormat.DATE ∧
    chunkedNaming (some FileNameFormat.DATE) = NamingAction.dateName ∧
    NamingAction.randomName ≠ NamingAction.dateName := by
  refine ⟨by decide, by decide, rfl, rfl, by decide⟩

/-- Claim C7 amended: when the format header is present with a non-empty value
whose uppercasing matches no enum member, the resolved format is the JS value
`false` (`none`) and both switches take their default branch — a random name on
the chunked path, and on the whole path (with no explicit filename header) a
random name as well; the configured default format is consulted only when the
header is absent or empty. -/
theorem C7_unmatched_header_falls_to_random (h d : String)
    (hne : jsToUpper h ≠ "") (hnm : jsToUpper h ∉ fileNameFormatKeys) :
    resolveFormat (some h) d = none ∧
    chunkedNaming (resolveFormat (some h) d) = NamingAction.randomName ∧
    wholeNaming (resolveFormat (some h) d) none = NamingAction.randomName := by
  have hr : rawFormat (some h) d = jsToUpper h := by
    unfold rawFormat
    simp [hne]
  have h0 : resolveFormat (some h) d = none := by
    unfold resolveFormat
    rw [hr, if_neg hnm]
  exact ⟨h0, by rw [h0]; rfl, by rw [h0]; rfl⟩

/-- Closed instance of `C7_unmatched_header_falls_to_random` at header `bogus`
and configured default `DATE`. -/
theorem C7_unmatched_header_falls_to_random_witness :
    resolveFormat (some "bogus") "RANDOM" = none ∧
    chunkedNaming (resolveFormat (some "bogus") "RANDOM") = NamingAction.randomName ∧
    wholeNaming (resolveFormat (some "bogus") "RANDOM") none = NamingAction.randomName :=
  C7_unmatched_header_falls_to_random "bogus" "RANDOM" (by decide) (by decide)

/-- Claim C8 counterexample: the spec says transcoding runs iff a compression
percent in `[0,100]` was supplied and the mimetype begins with `image/`, and
that the stored mimetype is then overwritten to `image/jpeg`. Percent `0` passes
the range validation yet is falsy in `imageCompressionPercent && ...`
(part_000 line 283), so no transcoding runs; and with the `uploadtext` header
set, a transcoded file's stored mimetype is `text/plain`, not `image/jpeg`
(line 288). -/
theorem C8_counterexample :
    checkPercent (some 0) = Except.ok (some 0) ∧
    compressionUsed (some 0) "image/png" = false ∧
    compressionUsed (some 50) "image/png" = true ∧
    storedMimetype true (compressionUsed (some 50) "image/png") "image/png" = "text/plain" ∧
    ("text/plain" : String) ≠ "image/jpeg" := by
  refine ⟨rfl, rfl, by decide, rfl, by decide⟩

/-- Claim C8 amended: for a compression percent that passes validation,
transcoding runs iff the percent is non-zero and the mimetype begins with
`image/`; when it runs and the `uploadtext` header is not set, the stored
mimetype is `image/jpeg` and the stored name carries the `.jpg` extension
regardless of the original extension; an absent percent never triggers it. -/
theorem C8_compression_amended (n : Int) (mime fname e : String)
    (_hacc : checkPercent (some n) = Except.ok (some n)) :
    (compressionUsed (some n) mime = true ↔ n ≠ 0 ∧ jsStartsWith mime "image/" = true) ∧
    (compressionUsed (some n) mime = true →
      storedMimetype false (compressionUsed (some n) mime) mime = "image/jpeg" ∧
      storedName fname e (compressionUsed (some n) mime) = fname ++ ".jpg") ∧
    compressionUsed none mime = false := by
  refine ⟨by simp [compressionUsed], ?_, rfl⟩
  intro hc
  rw [hc]
  exact ⟨rfl, rfl⟩

/-- Closed instance of `C8_compression_amended` at percent 50, mimetype
`image/png`. -/
theorem C8_compression_amended_witness :
    compressionUsed (some 50) "image/png" = true ∧
    storedMimetype false (compressionUsed (some 50) "image/png") "image/png" = "image/jpeg" ∧
    storedName "x" "png" (compressionUsed (some 50) "image/png") = "x" ++ ".jpg" := by
  have h := C8_compression_amended 50 "image/png" "x" "png" rfl
  have hc : compressionUsed (some 50) "image/png" = true := h.1.mpr ⟨by decide, rfl⟩
  exact ⟨hc, (h.2.1 hc).1, (h.2.1 hc).2⟩

/-- Claim C9 counterexample: the spec says a GET with no query parameters
returns all of the caller's File Records, favorite and non-favorite alike. The
`where` clause is `favorite: !!req.query.favorite` (files.ts line 75), so with
no query only non-favorite records are selected: a caller owning exactly one
favorite file gets an empty listing, while the same request with the `favorite`
query truthy returns it. -/
theorem C9_counterexample :
    listFiles (fun r n => r ++ n) "/u/" [⟨1, "a.png", 1, true, "image/png"⟩] 1 false none
      = [] ∧
    listFiles (fun r n => r ++ n) "/u/" [⟨1, "a.png", 1, true, "image/png"⟩] 1 true none
      = [⟨⟨1, "a.png", 1, true, "image/png"⟩, "/u/a.png"⟩] := by
  exact ⟨rfl, rfl⟩

/-- Claim C9 amended: a GET with no query parameters returns exactly the
caller's non-favorite File Records, each annotated with the computed public
URL; a truthy `favorite` query selects the caller's favorite records instead;
and `filter=media` narrows the selected set (it returns a subset of what the
same request without `filter` returns). -/
theorem listFiles_no_filter (fmtUrl : String → String → String) (route : String)
    (db : List FileRecord) (uid : Nat) (favQ : Bool) :
    listFiles fmtUrl route db uid favQ none =
      (db.filter (fun f => f.userId == uid && f.favorite == favQ)).map
        (fun f => ListedFile.mk f (fmtUrl route f.name)) := rfl

theorem listFiles_media_filter (fmtUrl : String → String → String) (route : String)
    (db : List FileRecord) (uid : Nat) (favQ : Bool) :
    listFiles fmtUrl route db uid favQ (some "media") =
      (listFiles fmtUrl route db uid favQ none).filter
        (fun x => mediaRegexTest x.entry.mimetype) := rfl

theorem C9_listing_amended (fmtUrl : String → String → String) (route : String)
    (db : List FileRecord) (uid : Nat) (favQ : Bool) (x : ListedFile) :
    (x ∈ listFiles fmtUrl route db uid favQ none ↔
      x.entry ∈ db ∧ x.entry.userId = uid ∧ x.entry.favorite = favQ ∧
        x.url = fmtUrl route x.entry.name) ∧
    (x ∈ listFiles fmtUrl route db uid favQ (some "media") →
      x ∈ listFiles fmtUrl route db uid favQ none) := by
  constructor
  · rw [listFiles_no_filter]
    obtain ⟨e, u⟩ := x
    simp only [List.mem_map, List.mem_filter, Bool.and_eq_true, beq_iff_eq,
      ListedFile.mk.injEq]
    constructor
    · rintro ⟨f, ⟨hf, hfu, hff⟩, rfl, hurl⟩
      exact ⟨hf, hfu, hff, hurl.symm⟩
    · rintro ⟨he, hu, hf, hurl⟩
      exact ⟨e, ⟨he, hu, hf⟩, rfl, hurl.symm⟩
  · intro hx
    rw [listFiles_media_filter] at hx
    exact List.mem_of_mem_filter hx

/-- Closed instance of `C9_listing_amended`: the caller's non-favorite record is
listed, with its URL, by a query-less GET. -/
theorem C9_listing_amended_witness :
    ListedFile.mk ⟨1, "a.png", 1, false, "image/png"⟩ "/u/a.png" ∈
      listFiles (fun r n => r ++ n) "/u/" [⟨1, "a.png", 1, false, "image/png"⟩] 1 false none :=
  (C9_listing_amended (fun r n => r ++ n) "/u/" [⟨1, "a.png", 1, false, "image/png"⟩] 1 false
    (ListedFile.mk ⟨1, "a.png", 1, false, "image/png"⟩ "/u/a.png")).1.mpr
    ⟨by decide, rfl, rfl, rfl⟩

/-- Claim C10: a request carrying a truthy `content-range` header enters the
chunked branch, where `req.files[0].buffer` (part_000 line 100) is evaluated
with no emptiness check — with `req.files` undefined or empty this is an
unguarded out-of-bounds access (`crashHead`), never the `no files` validation
failure; the `no files` rejection (lines 223-224) fires only on the non-chunked
path. -/
theorem C10_chunk_empty_files_unguarded (cr : String) (hcr : cr ≠ "") (lastchunk : Bool) :
    uploadDispatch (some cr) (some []) lastchunk = UploadOutcome.crashHead ∧
    uploadDispatch (some cr) none lastchunk = UploadOutcome.crashHead ∧
    uploadDispatch (some cr) (some []) lastchunk ≠ UploadOutcome.badRequest "no files" ∧
    uploadDispatch none (some []) lastchunk = UploadOutcome.badRequest "no files" := by
  have ht : truthy (some cr) = true := by simp [truthy, hcr]
  refine ⟨?_, ?_, ?_, rfl⟩ <;> simp [uploadDispatch, ht]

/-- Closed instance of `C10_chunk_empty_files_unguarded` at the content-range
header `bytes 0-4/10`. -/
theorem C10_chunk_empty_files_unguarded_witness :
    uploadDispatch (some "bytes 0-4/10") (some []) true = UploadOutcome.crashHead ∧
    uploadDispatch (some "bytes 0-4/10") (some []) true ≠ UploadOutcome.badRequest "no files" :=
  ⟨(C10_chunk_empty_files_unguarded "bytes 0-4/10" (by decide) true).1,
   (C10_chunk_empty_files_unguarded "bytes 0-4/10" (by decide) true).2.2.1⟩

theorem chunkDisjoint_symm : ∀ {c₁ c₂ : Chunk}, chunkDisjoint c₁ c₂ → chunkDisjoint c₂ c₁ := by
  intro c₁ c₂ h
  unfold chunkDisjoint at h ⊢
  omega

theorem not_covers_of_disjoint {c₁ c₂ : Chunk} {j : Nat} (hd : chunkDisjoint c₁ c₂)
    (h₁ : coversIdx c₁ j) : ¬ coversIdx c₂ j := by
  unfold chunkDisjoint at hd
  unfold coversIdx at h₁ ⊢
  omega

theorem writeChunk_covered {c : Chunk} {j : Nat} (a : Nat → Nat) (h : coversIdx c j) :
    writeChunk a c j = c.data.getD (j - c.start) 0 := by
  unfold coversIdx at h
  unfold writeChunk
  rw [if_pos h]

theorem writeChunk_not_covered {c : Chunk} {j : Nat} (a : Nat → Nat) (h : ¬ coversIdx c j) :
    writeChunk a c j = a j := by
  unfold coversIdx at h
  unfold writeChunk
  rw [if_neg h]

theorem foldl_writeChunk_not_covered :
    ∀ (l : List Chunk) (init : Nat → Nat) (j : Nat), (∀ c ∈ l, ¬ coversIdx c j) →
      l.foldl writeChunk init j = init j := by
  intro l
  induction l with
  | nil => intro init j _; rfl
  | cons d ds ih =>
    intro init j h
    rw [List.foldl_cons, ih _ j (fun c hc => h c (List.mem_cons_of_mem d hc))]
    exact writeChunk_not_covered init (h d (List.mem_cons_self d ds))

theorem foldl_writeChunk_covered :
    ∀ (l : List Chunk) (init : Nat → Nat) (j : Nat) (c : Chunk),
      c ∈ l → coversIdx c j → l.Pairwise chunkDisjoint →
      l.foldl writeChunk init j = c.data.getD (j - c.start) 0 := by
  intro l
  induction l with
  | nil => intro _ _ c hc; exact absurd hc (List.not_mem_nil c)
  | cons d ds ih =>
    intro init j c hc hcov hpw
    rw [List.pairwise_cons] at hpw
    obtain ⟨hd, hds⟩ := hpw
    rw [List.foldl_cons]
    rcases List.mem_cons.mp hc with rfl | hmem
    · have hnone : ∀ x ∈ ds, ¬ coversIdx x j :=
        fun x hx => not_covers_of_disjoint (hd x hx) hcov
      rw [foldl_writeChunk_not_covered ds _ j hnone]
      exact writeChunk_covered init hcov
    · exact ih _ j c hmem hcov hds

theorem reassemble_eq_orig {orig : Nat → Nat} {total : Nat} {l : List Chunk}
    (hv : validChunks orig total l) : ∀ j < total, reassemble l j = orig j := by
  intro j hj
  obtain ⟨hpw, hslice, _, hcover⟩ := hv
  obtain ⟨c, hcl, hcov⟩ := hcover j hj
  rw [reassemble, foldl_writeChunk_covered l _ j c hcl hcov hpw]
  have hcov' := hcov
  unfold coversIdx at hcov'
  have hk : j - c.start < c.data.length := by omega
  rw [hslice c hcl (j - c.start) hk]
  congr 1
  omega

theorem validChunks_perm {orig : Nat → Nat} {total : Nat} {l₁ l₂ : List Chunk}
    (hp : l₁.Perm l₂) (hv : validChunks orig total l₁) : validChunks orig total l₂ := by
  obtain ⟨hpw, hs, hb, hc⟩ := hv
  refine ⟨(hp.pairwise_iff (fun h => chunkDisjoint_symm h)).mp hpw,
    fun c hc2 => hs c (hp.mem_iff.mpr hc2),
    fun c hc2 => hb c (hp.mem_iff.mpr hc2),
    fun j hj => ?_⟩
  obtain ⟨c, hcl, hcov⟩ := hc j hj
  exact ⟨c, hp.mem_iff.mp hcl, hcov⟩

theorem count_unlinkAll (rs files : List String) (f : String) :
    (unlinkAll files rs).count f = files.count f - rs.count f := by
  induction rs generalizing files with
  | nil => simp [unlinkAll]
  | cons r rs ih =>
    have hstep : unlinkAll files (r :: rs) = unlinkAll (files.erase r) rs := rfl
    rw [hstep, ih (files.erase r), List.count_erase, List.count_cons]
    by_cases h : r = f
    · subst h
      simp
      omega
    · simp [h, Ne.symm h]

theorem unlink_session_complete (files : List String) (identifier : String) :
    ∀ f ∈ unlinkAll files (sessionChunkFiles files identifier),
      jsStartsWith f (sessionKey identifier) = false := by
  intro f hf
  by_contra hcontra
  have htrue : jsStartsWith f (sessionKey identifier) = true := by
    cases hb : jsStartsWith f (sessionKey identifier)
    · exact absurd hb hcontra
    · rfl
  have hcount : (sessionChunkFiles files identifier).count f = files.count f := by
    unfold sessionChunkFiles
    exact List.count_filter (by simpa using htrue)
  have hzero : (unlinkAll files (sessionChunkFiles files identifier)).count f = 0 := by
    rw [count_unlinkAll, hcount]
    omega
  exact absurd hf (List.count_eq_zero.mp hzero)

/-- Claim C3: for a session whose stored chunks tile `[0, total)` with no gaps
and no overlaps, reassembly (zero-filled buffer plus one offset copy per chunk,
in directory-listing order) reproduces the original byte sequence at every
position below `total`, for every submission/listing order of the chunks
(`l₂` ranges over all permutations of `l₁`); and after the reassembly loop,
which unlinks every listed chunk file of the session, no transient entry whose
name starts with the session's `zipline_partial_` key remains. -/
theorem C3_reassembly_permutation_invariant (orig : Nat → Nat) (total : Nat)
    (l₁ l₂ : List Chunk) (files : List String) (identifier : String)
    (hperm : l₁.Perm l₂) (hv : validChunks orig total l₁) :
    (∀ j < total, reassemble l₁ j = orig j ∧ reassemble l₂ j = orig j) ∧
    (∀ f ∈ unlinkAll files (sessionChunkFiles files identifier),
      jsStartsWith f (sessionKey identifier) = false) :=
  ⟨fun j hj => ⟨reassemble_eq_orig hv j hj,
      reassemble_eq_orig (validChunks_perm hperm hv) j hj⟩,
   unlink_session_complete files identifier⟩

/-- Closed instance of `C3_reassembly_permutation_invariant`: the two-chunk
session `bytes 0-1/4` and `bytes 2-3/4` reassembles to the original bytes in
both submission orders. -/
theorem C3_reassembly_permutation_invariant_witness :
    reassemble [Chunk.mk 0 [10, 11], Chunk.mk 2 [12, 13]] 2 = 12 ∧
    reassemble [Chunk.mk 2 [12, 13], Chunk.mk 0 [10, 11]] 2 = 12 := by
  have h := C3_reassembly_permutation_invariant (fun j => 10 + j) 4
    [Chunk.mk 0 [10, 11], Chunk.mk 2 [12, 13]]
    [Chunk.mk 2 [12, 13], Chunk.mk 0 [10, 11]]
    ["zipline_partial_id1_0_1", "other.txt", "zipline_partial_id1_2_3"] "id1"
    (by decide) (by decide)
  exact ⟨(h.1 2 (by decide)).1, (h.1 2 (by decide)).2⟩

end Zipline
